import Mathlib

/-!
# Shard manager (`internal/sharding/shardmanager.go`)

A shallow embedding of the shard manager of the repository: the router
`getDBAndIndexFor`, the dispatching operations `InsertUser` and `GetUser`,
the aggregate `Close`, and the constructor `NewShardManager`.

Conventions of the embedding.

* Go's `int` is the 64-bit signed integer of the usual targets of the SQLite
  driver; it is an `Int` here and every narrowing conversion of the source
  (`uint32(..)`, `uint64(..)`) is written out as a remainder modulo `2 ^ w`.
* A run-time panic of Go (integer division by zero, slice index out of range)
  is an explicit result, `Except.error`.
* A method with a pointer receiver takes the manager in a `State` and returns
  the `State` after the call, so that what it leaves unchanged is a theorem.
* The SQL backend (`database/sql` with the SQLite driver) is not code of the
  repository.  It is represented by a `World`: the contents of the `users`
  table of every database file, a counter of pool handles, and the journal of
  the calls issued so far.  Whether a call succeeds is an input of the
  operation that issues it, so every statement below holds for every behaviour
  of the backend.  What is assumed of the backend: a statement that fails
  changes no table; the error of a failing call is not `sql.ErrNoRows`;
  `users` is a table of texts with the primary key `id`; two paths are two
  files.
* `strconv.FormatInt`, `crc32.ChecksumIEEE` and `fmt.Sprintf` are given by what
  they compute; `filepath.Join` is a parameter of the constructor.
-/

namespace Sharding

/-! ## Library functions used by the router -/

/-- Decimal digits of `u`, most significant first, as ASCII codes, pushed in front
of `acc`.  The first argument bounds the number of digits produced. -/
def decimalDigits : Nat → Nat → List Nat → List Nat
  | 0, _, acc => acc
  | fuel + 1, u, acc =>
    if u < 10 then (48 + u) :: acc
    else decimalDigits fuel (u / 10) ((48 + u % 10) :: acc)

/-- Decimal representation of an unsigned number (ASCII codes). -/
def formatUint (u : Nat) : List Nat :=
  decimalDigits (u + 1) u []

/-- Go's `strconv.FormatInt(i, 10)` followed by the conversion to `[]byte`: the
magnitude is computed in `uint64` arithmetic (`u := uint64(i); if i < 0 { u = -u }`),
and a minus sign (ASCII 45) is put in front of a negative number. -/
def FormatInt (i : Int) : List Nat :=
  let u : Nat := (i % 2 ^ 64).toNat
  let u : Nat := if i < 0 then (2 ^ 64 - u) % 2 ^ 64 else u
  if i < 0 then 45 :: formatUint u else formatUint u

/-- The reversed IEEE polynomial, `crc32.IEEE`. -/
def IEEE : Nat := 0xedb88320

/-- One round of the table construction of `hash/crc32`
(`if crc&1 == 1 { crc = (crc >> 1) ^ poly } else { crc >>= 1 }`). -/
def crcRound (crc : Nat) : Nat :=
  if crc &&& 1 = 1 then (crc >>> 1) ^^^ IEEE else crc >>> 1

/-- Entry `i` of the IEEE table of `hash/crc32` (eight rounds from `i`). -/
def ieeeTable (i : Nat) : Nat :=
  crcRound (crcRound (crcRound (crcRound (crcRound (crcRound (crcRound (crcRound i)))))))

/-- Go's `crc32.ChecksumIEEE`, in the byte-at-a-time form of the library:
`crc = ^crc; for v in p { crc = tab[byte(crc)^v] ^ (crc >> 8) }; return ^crc`. -/
def ChecksumIEEE (p : List Nat) : Nat :=
  (p.foldl (fun crc v => ieeeTable ((crc &&& 0xff) ^^^ v) ^^^ (crc >>> 8)) 0xffffffff)
    ^^^ 0xffffffff

/-! ## Errors, panics and the backend -/

/-- An error reported by the backend (the driver or the pool). -/
structure BackendErr where
  msg : String
deriving DecidableEq, Repr

/-- The error values that the shard manager returns. -/
inductive GoError where
  /-- The value `sql.ErrNoRows`. -/
  | errNoRows
  /-- An error of the backend, returned as it is. -/
  | backend (e : BackendErr)
  /-- The value of `fmt.Errorf(msg)`. -/
  | errorf (msg : String)
  /-- The value of `fmt.Errorf(msg + "%w", e)`. -/
  | wrap (msg : String) (e : BackendErr)
  /-- The value of `errors.Join(es...)` for a non-empty `es`. -/
  | join (es : List BackendErr)
deriving DecidableEq, Repr

/-- The run-time panics that the source can raise. -/
inductive Panic where
  | divideByZero
  | indexOutOfRange
deriving DecidableEq, Repr

/-- A pool `*sql.DB`: the identity of the handle and the file it was opened on. -/
structure DB where
  handle : Nat
  path : String
deriving DecidableEq, Repr

/-- The SQL statements of the source. -/
inductive Stmt where
  /-- `PRAGMA journal_mode = WAL;` -/
  | journalModeWAL
  /-- `PRAGMA busy_timeout = 5000;` -/
  | busyTimeout
  /-- `PRAGMA synchronous = NORMAL;` -/
  | synchronousNormal
  /-- `PRAGMA wal_autocheckpoint = 1000;` -/
  | walAutocheckpoint
  /-- `CREATE TABLE IF NOT EXISTS users (id INTEGER PRIMARY KEY, username TEXT, payload TEXT)` -/
  | createUsers
  /-- `INSERT OR IGNORE INTO users (id, username, payload) VALUES (?, ?, ?)` -/
  | insertOrIgnore (id : Int) (username payload : String)
  /-- `SELECT username, payload FROM users WHERE id = ?` -/
  | selectUser (id : Int)
deriving DecidableEq, Repr

/-- A call issued to the operating system or to the backend. -/
inductive Event where
  /-- `os.MkdirAll(path, 0755)` -/
  | mkdirAll (path : String)
  /-- `sql.Open("sqlite3", path)`; `handle` is the pool it returned, if any. -/
  | sqlOpen (path : String) (handle : Option Nat)
  /-- `db.SetMaxOpenConns(n)` -/
  | setMaxOpenConns (handle n : Nat)
  /-- `db.SetMaxIdleConns(n)` -/
  | setMaxIdleConns (handle n : Nat)
  /-- `db.SetConnMaxLifetime(minutes * time.Minute)` -/
  | setConnMaxLifetime (handle minutes : Nat)
  /-- `db.Exec(stmt)` -/
  | exec (handle : Nat) (stmt : Stmt)
  /-- `db.QueryRow(stmt).Scan(..)` -/
  | query (handle : Nat) (stmt : Stmt)
  /-- `db.Close()` -/
  | close (handle : Nat)
deriving DecidableEq, Repr

/-- The state outside the manager.  `users path id` is the record with primary key
`id` of the `users` table of the file `path`; the primary key makes it a partial
function of `id`. -/
structure World where
  users : String → Int → Option (String × String)
  nextHandle : Nat
  journal : List Event

/-- Append a call to the journal. -/
def World.record (w : World) (e : Event) : World :=
  { w with journal := w.journal ++ [e] }

/-- The effect of a successful `INSERT OR IGNORE` on the file `path`: the record is
stored when the key is free and the statement is ignored when it is taken. -/
def World.insertOrIgnore (w : World) (path : String) (id : Int) (username payload : String) :
    World :=
  match w.users path id with
  | some _ => w
  | none =>
    { w with users := fun q k => if q = path ∧ k = id then some (username, payload)
                                 else w.users q k }

/-- The pools that are open after the calls of a journal: opened by `sql.Open` and
not closed by a later `Close`. -/
def stillOpen (journal : List Event) : List Nat :=
  journal.foldl
    (fun acc e =>
      match e with
      | .sqlOpen _ (some h) => acc ++ [h]
      | .close h => acc.filter (fun x => x ≠ h)
      | _ => acc)
    []

/-- The handles on which `Close` was called, in the order of the calls. -/
def closedHandles : List Event → List Nat
  | [] => []
  | e :: rest =>
    match e with
    | .close h => h :: closedHandles rest
    | _ => closedHandles rest

/-! ## The shard manager -/

/-- The struct `ShardManager`. -/
structure ShardManager where
  dbs : List DB
  numShards : Int
deriving DecidableEq, Repr

/-- The receiver of a method together with the state outside it. -/
structure State where
  sm : ShardManager
  world : World

/-- The method `getDBAndIndexFor`.  `uint32(s.numShards)` is the remainder modulo
`2 ^ 32`; the remainder `h % uint32(s.numShards)` panics when the divisor is zero and
the slice index panics when it is not below the length of `dbs`. -/
def getDBAndIndexFor (s : ShardManager) (id : Int) : Except Panic (DB × Int) :=
  if s.numShards = 1 then
    match s.dbs[0]? with
    | some db => .ok (db, 0)
    | none => .error .indexOutOfRange
  else
    let h : Nat := ChecksumIEEE (FormatInt id)
    let n32 : Nat := (s.numShards % 2 ^ 32).toNat
    if n32 = 0 then .error .divideByZero
    else
      let idx : Nat := h % n32
      match s.dbs[idx]? with
      | some db => .ok (db, (idx : Int))
      | none => .error .indexOutOfRange

/-- The method `InsertUser`.  `fault` is what the backend answers to the statement:
`none` when it executes it, an error otherwise; a statement that fails changes no
table.  The line written by `log.Printf` goes to the standard error stream, which is
not part of the state. -/
def InsertUser (st : State) (fault : Option BackendErr) (id : Int)
    (username payload : String) : State × Except Panic (Option GoError) :=
  match getDBAndIndexFor st.sm id with
  | .error p => (st, .error p)
  | .ok (db, _) =>
    let w := st.world.record (.exec db.handle (.insertOrIgnore id username payload))
    match fault with
    | some e => ({ st with world := w }, .ok (some (.backend e)))
    | none =>
      ({ st with world := w.insertOrIgnore db.path id username payload }, .ok none)

/-- The method `GetUser`.  `fault` is what the backend answers to the query; a failure
of the backend is taken to come before `Scan` assigns a string.  When the query
runs, `Scan` fills the two strings from the row with the key `id`, and returns
`sql.ErrNoRows`, leaving them empty, when there is no such row.  The line written by
`log.Printf` is not part of the state. -/
def GetUser (st : State) (fault : Option BackendErr) (id : Int) :
    State × Except Panic (String × String × Option GoError) :=
  match getDBAndIndexFor st.sm id with
  | .error p => (st, .error p)
  | .ok (db, _) =>
    let w := st.world.record (.query db.handle (.selectUser id))
    match fault with
    | some e => ({ st with world := w }, .ok ("", "", some (.backend e)))
    | none =>
      match w.users db.path id with
      | none => ({ st with world := w }, .ok ("", "", some .errNoRows))
      | some (uname, payload) => ({ st with world := w }, .ok (uname, payload, none))

/-- The loop of `Close`: `closeErr i` is what closing the store at position `i`
returns.  The arguments are the stores left, the position of the first of them and
the errors collected so far. -/
def closeLoop (closeErr : Nat → Option BackendErr) :
    List DB → Nat → List BackendErr → World → World × List BackendErr
  | [], _, allErrors, w => (w, allErrors)
  | db :: rest, i, allErrors, w =>
    let w := w.record (.close db.handle)
    match closeErr i with
    | some err => closeLoop closeErr rest (i + 1) (allErrors ++ [err]) w
    | none => closeLoop closeErr rest (i + 1) allErrors w

/-- The method `Close`. -/
def Close (st : State) (closeErr : Nat → Option BackendErr) : State × Option GoError :=
  let r := closeLoop closeErr st.sm.dbs 0 [] st.world
  if r.2.length > 0 then ({ st with world := r.1 }, some (.join r.2))
  else ({ st with world := r.1 }, none)

/-- What the operating system and the backend answer during a construction: to the
creation of the directory, to the opening of the pool of store `i`, and to each
statement executed on store `i`. -/
structure Faults where
  mkdirAll : Option BackendErr
  sqlOpen : Nat → Option BackendErr
  exec : Nat → Stmt → Option BackendErr

/-- The text of `fmt.Sprintf("shard_%d.db", i)`. -/
def shardFileName (i : Nat) : String :=
  "shard_" ++ String.mk ((FormatInt (i : Int)).map Char.ofNat) ++ ".db"

/-- The body of the loop of `NewShardManager` for the index `i`.  `join` is
`filepath.Join`, a function of the library. -/
def openShard (join : String → String → String) (f : Faults) (baseDir : String) (i : Nat)
    (w : World) : World × Except GoError DB :=
  let fname := join baseDir (shardFileName i)
  match f.sqlOpen i with
  | some err => (w.record (.sqlOpen fname none), .error (.backend err))
  | none =>
    let db : DB := { handle := w.nextHandle, path := fname }
    let w := { w with nextHandle := w.nextHandle + 1 }
    let w := w.record (.sqlOpen fname (some db.handle))
    let w := w.record (.setMaxOpenConns db.handle 20)
    let w := w.record (.setMaxIdleConns db.handle 10)
    let w := w.record (.setConnMaxLifetime db.handle 5)
    let w := w.record (.exec db.handle .journalModeWAL)
    match f.exec i .journalModeWAL with
    | some err =>
      (w.record (.close db.handle), .error (.wrap "failed set journal_mode WAL: " err))
    | none =>
    let w := w.record (.exec db.handle .busyTimeout)
    match f.exec i .busyTimeout with
    | some err =>
      (w.record (.close db.handle), .error (.wrap "failed set busy_timeout: " err))
    | none =>
    let w := w.record (.exec db.handle .synchronousNormal)
    match f.exec i .synchronousNormal with
    | some err =>
      (w.record (.close db.handle), .error (.wrap "failed set synchronous: " err))
    | none =>
    let w := w.record (.exec db.handle .walAutocheckpoint)
    match f.exec i .walAutocheckpoint with
    | some err =>
      (w.record (.close db.handle), .error (.wrap "failed set wal_autocheckpoint: " err))
    | none =>
    let w := w.record (.exec db.handle .createUsers)
    match f.exec i .createUsers with
    | some err => (w.record (.close db.handle), .error (.backend err))
    | none => (w, .ok db)

/-- The loop `for i := 0; i < num; i++` of `NewShardManager`: `k` iterations are
left, `i` is the index of the next one and `dbs` is `sm.dbs`. -/
def openShards (join : String → String → String) (f : Faults) (baseDir : String) :
    Nat → Nat → List DB → World → World × Except GoError (List DB)
  | 0, _, dbs, w => (w, .ok dbs)
  | k + 1, i, dbs, w =>
    match openShard join f baseDir i w with
    | (w, .error e) => (w, .error e)
    | (w, .ok db) => openShards join f baseDir k (i + 1) (dbs ++ [db]) w

/-- The function `NewShardManager`. -/
def NewShardManager (join : String → String → String) (f : Faults) (num : Int)
    (baseDir : String) (w : World) : World × Except GoError ShardManager :=
  if num < 1 then (w, .error (.errorf "num shards must be >= 1"))
  else
    let baseDir := if baseDir = "" then "temp" else baseDir
    let w := w.record (.mkdirAll baseDir)
    match f.mkdirAll with
    | some err => (w, .error (.wrap "failed create db dir: " err))
    | none =>
      match openShards join f baseDir num.toNat 0 [] w with
      | (w, .error e) => (w, .error e)
      | (w, .ok dbs) => (w, .ok { dbs := dbs, numShards := num })

/-! ## The reference router of the specification -/

/-- The decimal numeral of a natural number as ASCII codes, most significant digit
first; the numeral of zero is the digit `0`. -/
def decimalNumeral (n : Nat) : List Nat :=
  if n = 0 then [48] else (Nat.digits 10 n).reverse.map (fun d => 48 + d)

/-- The canonical base-10 string of a key: the decimal numeral of its magnitude, with
a leading minus sign for a negative key. -/
def decimalString (id : Int) : List Nat :=
  if id < 0 then 45 :: decimalNumeral id.natAbs else decimalNumeral id.natAbs

/-- One step of the division by the IEEE polynomial, the least significant bit first:
the register is halved, and the polynomial is added to it (modulo 2) when the bit
shifted out is a one. -/
def crcBitStep (crc : Nat) : Nat :=
  if crc % 2 = 1 then (crc / 2) ^^^ IEEE else crc / 2

/-- A byte is added to the low bits of the register, which then takes eight steps. -/
def crcByte (crc byte : Nat) : Nat :=
  crcBitStep^[8] (crc ^^^ byte)

/-- CRC-32 with the IEEE polynomial: the register starts with all 32 bits set, takes
the bytes in order, and is complemented at the end. -/
def crc32 (p : List Nat) : Nat :=
  (p.foldl crcByte 0xffffffff) ^^^ 0xffffffff

/-- The router as the specification words it: index `0` for a single shard, and
otherwise the CRC-32 (IEEE) of the decimal string of the key modulo the number of
shards. -/
def referenceRoute (id : Int) (n : Int) : Int :=
  if n = 1 then 0 else (crc32 (decimalString id) : Int) % n

/-! ## Invariants and notions used in the statements -/

/-- The invariant of a constructed manager: at least one shard, and as many stores as
shards. -/
def ShardManager.WF (s : ShardManager) : Prop :=
  1 ≤ s.numShards ∧ (s.dbs.length : Int) = s.numShards

/-- The stores of the manager are opened on pairwise different files. -/
def ShardManager.DistinctFiles (s : ShardManager) : Prop :=
  (s.dbs.map DB.path).Nodup

instance (s : ShardManager) : Decidable s.WF :=
  inferInstanceAs (Decidable (1 ≤ s.numShards ∧ (s.dbs.length : Int) = s.numShards))

instance (s : ShardManager) : Decidable s.DistinctFiles :=
  inferInstanceAs (Decidable (s.dbs.map DB.path).Nodup)

/-- Every step of a construction with `num` shards succeeds. -/
def Faults.AllSucceed (f : Faults) (num : Int) : Prop :=
  f.mkdirAll = none ∧ ∀ i : Nat, (i : Int) < num → f.sqlOpen i = none ∧ ∀ s, f.exec i s = none

/-- The base directory that `NewShardManager` works with. -/
def effectiveBaseDir (baseDir : String) : String :=
  if baseDir = "" then "temp" else baseDir

/-- The calls issued for a store whose construction succeeds, on the pool `h` opened
on the file `fname`. -/
def setupCalls (h : Nat) (fname : String) : List Event :=
  [.sqlOpen fname (some h), .setMaxOpenConns h 20, .setMaxIdleConns h 10,
   .setConnMaxLifetime h 5, .exec h .journalModeWAL, .exec h .busyTimeout,
   .exec h .synchronousNormal, .exec h .walAutocheckpoint, .exec h .createUsers]

/-- The store that the iteration `j` after the index `i` builds from the world `w`. -/
def shardAt (join : String → String → String) (baseDir : String) (w : World) (i j : Nat) :
    DB :=
  { handle := w.nextHandle + j, path := join baseDir (shardFileName (i + j)) }

/-- The record with the key `id` in the shard that `id` is routed to, if there is
one. -/
def routedRecord (st : State) (id : Int) : Option (String × String) :=
  match getDBAndIndexFor st.sm id with
  | .ok (db, _) => st.world.users db.path id
  | .error _ => none

/-- A call of one of the two dispatching operations, with the answer of the backend. -/
inductive Op where
  | insert (fault : Option BackendErr) (id : Int) (username payload : String)
  | get (fault : Option BackendErr) (id : Int)

/-- The state after a call. -/
def Op.apply (st : State) : Op → State
  | .insert fault id username payload => (InsertUser st fault id username payload).1
  | .get fault id => (GetUser st fault id).1

/-- The state after a sequence of calls. -/
def runOps (st : State) (ops : List Op) : State :=
  ops.foldl Op.apply st

/-- The value that a list of characters denotes in base 10, when they are digits. -/
def charsValue (l : List Char) : Nat :=
  l.foldl (fun acc c => acc * 10 + (c.toNat - 48)) 0

/-! ## Concrete inputs -/

/-- A joiner of paths for the concrete inputs: the directory, a slash, the name. -/
def joinSlash (dir name : String) : String :=
  dir ++ "/" ++ name

/-- A world with empty tables, no pool and an empty journal. -/
def emptyWorld : World :=
  { users := fun _ _ => none, nextHandle := 0, journal := [] }

/-- A backend that executes every step of a construction. -/
def noFaults : Faults :=
  { mkdirAll := none, sqlOpen := fun _ => none, exec := fun _ _ => none }

/-- A backend that fails the first pragma of the store of index 1 and executes every
other step. -/
def faultAtSecondStore : Faults :=
  { mkdirAll := none
    sqlOpen := fun _ => none
    exec := fun i s =>
      match i, s with
      | 1, .journalModeWAL => some { msg := "disk I/O error" }
      | _, _ => none }

/-- Close outcomes for three stores: the first and the third fail. -/
def closeFailsTwice (i : Nat) : Option BackendErr :=
  match i with
  | 0 => some { msg := "close 0 failed" }
  | 2 => some { msg := "close 2 failed" }
  | _ => none

/-- A manager of one shard. -/
def oneShard : ShardManager :=
  { dbs := [{ handle := 0, path := "data/shard_0.db" }], numShards := 1 }

/-- A manager of three shards. -/
def threeShards : ShardManager :=
  { dbs := [{ handle := 0, path := "data/shard_0.db" },
            { handle := 1, path := "data/shard_1.db" },
            { handle := 2, path := "data/shard_2.db" }]
    numShards := 3 }

/-- Three stores with other files than `threeShards`. -/
def otherThreeShards : ShardManager :=
  { dbs := [{ handle := 7, path := "x/shard_0.db" },
            { handle := 8, path := "x/shard_1.db" },
            { handle := 9, path := "x/shard_2.db" }]
    numShards := 3 }

/-- A state of one shard with empty tables. -/
def stateOneShard : State :=
  { sm := oneShard, world := emptyWorld }

/-- A state of three shards with empty tables. -/
def stateThreeShards : State :=
  { sm := threeShards, world := emptyWorld }

/-- The state of one shard after `InsertUser(7, "old", "x")` on empty tables: the
table holds a record with the key 7. -/
def stateWithRecord : State :=
  (InsertUser stateOneShard none 7 "old" "x").1

/-- The records `(id, u<id>, p<id>)` for the ids 1 to 10. -/
def scenarioRecords : List (Int × String × String) :=
  [(1, "u1", "p1"), (2, "u2", "p2"), (3, "u3", "p3"), (4, "u4", "p4"), (5, "u5", "p5"),
   (6, "u6", "p6"), (7, "u7", "p7"), (8, "u8", "p8"), (9, "u9", "p9"), (10, "u10", "p10")]

/-- The state after the ten inserts on three empty shards, the backend executing
every statement. -/
def scenarioState : State :=
  scenarioRecords.foldl (fun st r => (InsertUser st none r.1 r.2.1 r.2.2).1) stateThreeShards

/-! ## The library functions: ranges, decimal strings, file names -/

theorem two_pow_32 : (2 : Int) ^ 32 = 4294967296 := by norm_num

theorem two_pow_64 : (2 : Int) ^ 64 = 18446744073709551616 := by norm_num

theorem decimalDigits_acc :
    ∀ (fuel u : Nat) (acc : List Nat),
      decimalDigits fuel u acc = decimalDigits fuel u [] ++ acc := by
  intro fuel
  induction fuel with
  | zero => intro u acc; rfl
  | succ fuel ih =>
    intro u acc
    unfold decimalDigits
    split
    · rfl
    · rw [ih (u / 10) ((48 + u % 10) :: acc), ih (u / 10) [48 + u % 10], List.append_assoc]
      rfl

theorem decimalDigits_eq_decimalNumeral :
    ∀ (fuel u : Nat), u < fuel → decimalDigits fuel u [] = decimalNumeral u := by
  intro fuel
  induction fuel with
  | zero => intro u hu; omega
  | succ fuel ih =>
    intro u hu
    unfold decimalDigits
    split
    · rename_i hlt
      unfold decimalNumeral
      by_cases h0 : u = 0
      · rw [if_pos h0, h0]
      · rw [if_neg h0, Nat.digits_of_lt 10 u h0 hlt]
        rfl
    · rename_i hge
      have hpos : 0 < u := by omega
      have hdiv : u / 10 ≠ 0 := by omega
      rw [decimalDigits_acc, ih (u / 10) (by omega)]
      unfold decimalNumeral
      rw [if_neg hdiv, if_neg (by omega), Nat.digits_def' (by norm_num) hpos]
      simp

theorem formatUint_eq_decimalNumeral (u : Nat) : formatUint u = decimalNumeral u :=
  decimalDigits_eq_decimalNumeral (u + 1) u (Nat.lt_succ_self u)

theorem FormatInt_eq_decimalString (id : Int) (hlo : -2 ^ 63 ≤ id) (hhi : id < 2 ^ 63) :
    FormatInt id = decimalString id := by
  have h63 : (2 : Int) ^ 63 = 9223372036854775808 := by norm_num
  have hn : (2 : Nat) ^ 64 = 18446744073709551616 := by norm_num
  rw [h63] at hlo hhi
  unfold FormatInt decimalString
  rw [← formatUint_eq_decimalNumeral]
  simp only [two_pow_64, hn]
  by_cases hneg : id < 0
  · simp only [hneg, if_true]
    congr 2
    omega
  · simp only [hneg, if_false]
    congr 1
    omega

theorem crcRound_eq_crcBitStep (x : Nat) : crcRound x = crcBitStep x := by
  unfold crcRound crcBitStep
  simp only [Nat.and_one_is_mod, Nat.shiftRight_eq_div_pow, pow_one]

theorem shiftRight_one_xor (a b : Nat) : (a ^^^ b) / 2 = (a / 2) ^^^ (b / 2) := by
  apply Nat.eq_of_testBit_eq
  intro i
  have h : ∀ x : Nat, x / 2 = x >>> 1 := fun x => by
    rw [Nat.shiftRight_eq_div_pow, pow_one]
  rw [h, h, h]
  simp only [Nat.testBit_shiftRight, Nat.testBit_xor]

theorem xor_mod_two (a b : Nat) : (a ^^^ b) % 2 = (a % 2) ^^^ (b % 2) := by
  rw [← Nat.and_one_is_mod, ← Nat.and_one_is_mod, ← Nat.and_one_is_mod,
    Nat.and_xor_distrib_right]

theorem crcBitStep_xor (a b : Nat) :
    crcBitStep (a ^^^ b) = crcBitStep a ^^^ crcBitStep b := by
  unfold crcBitStep
  rw [xor_mod_two, shiftRight_one_xor]
  rcases Nat.mod_two_eq_zero_or_one a with ha | ha <;>
    rcases Nat.mod_two_eq_zero_or_one b with hb | hb <;>
    simp only [ha, hb] <;> simp <;>
    (apply Nat.eq_of_testBit_eq; intro i; simp only [Nat.testBit_xor]
     cases (a / 2).testBit i <;> cases (b / 2).testBit i <;> cases IEEE.testBit i <;> rfl)

theorem crcBitStep_iterate_xor (n : Nat) (a b : Nat) :
    crcBitStep^[n] (a ^^^ b) = crcBitStep^[n] a ^^^ crcBitStep^[n] b := by
  induction n generalizing a b with
  | zero => rfl
  | succ n ih =>
    rw [Function.iterate_succ_apply, Function.iterate_succ_apply,
      Function.iterate_succ_apply, crcBitStep_xor, ih]

theorem crcBitStep_even (x : Nat) (h : x % 2 = 0) : crcBitStep x = x / 2 := by
  unfold crcBitStep
  rw [if_neg (by omega)]

theorem crcBitStep_iterate_high (x : Nat) : crcBitStep^[8] (x * 256) = x := by
  simp only [Function.iterate_succ_apply, Function.iterate_zero, id]
  rw [crcBitStep_even (x * 256) (by omega)]
  rw [crcBitStep_even (x * 256 / 2) (by omega)]
  rw [crcBitStep_even (x * 256 / 2 / 2) (by omega)]
  rw [crcBitStep_even (x * 256 / 2 / 2 / 2) (by omega)]
  rw [crcBitStep_even (x * 256 / 2 / 2 / 2 / 2) (by omega)]
  rw [crcBitStep_even (x * 256 / 2 / 2 / 2 / 2 / 2) (by omega)]
  rw [crcBitStep_even (x * 256 / 2 / 2 / 2 / 2 / 2 / 2) (by omega)]
  rw [crcBitStep_even (x * 256 / 2 / 2 / 2 / 2 / 2 / 2 / 2) (by omega)]
  omega

theorem split_low_byte (crc : Nat) : crc = (crc &&& 0xff) ^^^ ((crc >>> 8) * 256) := by
  apply Nat.eq_of_testBit_eq
  intro i
  have h255 : (0xff : Nat) = 2 ^ 8 - 1 := by norm_num
  have h256 : (crc >>> 8) * 256 = (crc >>> 8) <<< 8 := by
    rw [Nat.shiftLeft_eq]
  rw [h256, h255]
  simp only [Nat.testBit_xor, Nat.testBit_and, Nat.testBit_two_pow_sub_one,
    Nat.testBit_shiftLeft, Nat.testBit_shiftRight]
  by_cases hi : i < 8
  · simp [hi, Nat.not_le.mpr hi]
  · have hle : 8 ≤ i := Nat.le_of_not_lt hi
    simp [hi, hle, Nat.add_sub_cancel' hle]

theorem ieeeTable_eq (x : Nat) : ieeeTable x = crcBitStep^[8] x := by
  unfold ieeeTable
  simp only [crcRound_eq_crcBitStep, Function.iterate_succ_apply, Function.iterate_zero, id]

theorem table_step_eq_crcByte (crc v : Nat) :
    ieeeTable ((crc &&& 0xff) ^^^ v) ^^^ (crc >>> 8) = crcByte crc v := by
  unfold crcByte
  conv_rhs => rw [split_low_byte crc]
  have hre : (crc &&& 0xff) ^^^ (crc >>> 8) * 256 ^^^ v
      = ((crc &&& 0xff) ^^^ v) ^^^ ((crc >>> 8) * 256) := by
    rw [Nat.xor_assoc, Nat.xor_comm ((crc >>> 8) * 256) v, ← Nat.xor_assoc]
  rw [hre, crcBitStep_iterate_xor, crcBitStep_iterate_high, ieeeTable_eq]

/-- The table-driven checksum of the library is the CRC-32 of the IEEE polynomial. -/
theorem ChecksumIEEE_eq_crc32 (p : List Nat) : ChecksumIEEE p = crc32 p := by
  unfold ChecksumIEEE crc32
  congr 1
  congr 1
  funext crc v
  exact table_step_eq_crcByte crc v

theorem crcRound_lt (crc : Nat) (h : crc < 2 ^ 32) : crcRound crc < 2 ^ 32 := by
  have hshift : crc >>> 1 < 2 ^ 32 := by
    rw [Nat.shiftRight_eq_div_pow]
    exact lt_of_le_of_lt (Nat.div_le_self _ _) h
  unfold crcRound
  split
  · exact Nat.xor_lt_two_pow hshift (by unfold IEEE; norm_num)
  · exact hshift

theorem ieeeTable_lt (i : Nat) (h : i < 2 ^ 32) : ieeeTable i < 2 ^ 32 := by
  unfold ieeeTable
  repeat apply crcRound_lt
  exact h

/-- The checksum of a sequence of bytes is a `uint32`. -/
theorem ChecksumIEEE_lt (p : List Nat) (hp : ∀ v ∈ p, v < 256) : ChecksumIEEE p < 2 ^ 32 := by
  have hfold : ∀ (l : List Nat) (crc : Nat), (∀ v ∈ l, v < 256) → crc < 2 ^ 32 →
      l.foldl (fun crc v => ieeeTable ((crc &&& 0xff) ^^^ v) ^^^ (crc >>> 8)) crc < 2 ^ 32 := by
    intro l
    induction l with
    | nil => intro crc _ h; exact h
    | cons v rest ih =>
      intro crc hl h
      rw [List.foldl_cons]
      apply ih _ (fun x hx => hl x (List.mem_cons_of_mem _ hx))
      have hv : v < 2 ^ 32 := lt_trans (hl v (List.mem_cons_self _ _)) (by norm_num)
      have hlow : crc &&& 0xff < 2 ^ 32 := Nat.and_lt_two_pow crc (by norm_num)
      have hshift : crc >>> 8 < 2 ^ 32 := by
        rw [Nat.shiftRight_eq_div_pow]
        exact lt_of_le_of_lt (Nat.div_le_self _ _) h
      exact Nat.xor_lt_two_pow (ieeeTable_lt _ (Nat.xor_lt_two_pow hlow hv)) hshift
  unfold ChecksumIEEE
  exact Nat.xor_lt_two_pow (hfold p _ hp (by norm_num)) (by norm_num)

theorem decimalDigits_bytes :
    ∀ (fuel u : Nat) (acc : List Nat), (∀ v ∈ acc, v < 256) →
      ∀ v ∈ decimalDigits fuel u acc, v < 256 := by
  intro fuel
  induction fuel with
  | zero => intro u acc hacc v hv; exact hacc v hv
  | succ fuel ih =>
    intro u acc hacc v hv
    unfold decimalDigits at hv
    split at hv
    · rcases List.mem_cons.mp hv with h | h
      · omega
      · exact hacc v h
    · apply ih (u / 10) ((48 + u % 10) :: acc) _ v hv
      intro x hx
      rcases List.mem_cons.mp hx with h | h
      · omega
      · exact hacc x h

/-- The bytes of `FormatInt` are bytes. -/
theorem FormatInt_bytes (i : Int) : ∀ v ∈ FormatInt i, v < 256 := by
  intro v hv
  unfold FormatInt at hv
  dsimp only at hv
  split at hv
  · rcases List.mem_cons.mp hv with h | h
    · omega
    · exact decimalDigits_bytes _ _ [] (fun x hx => absurd hx (List.not_mem_nil x)) v h
  · exact decimalDigits_bytes _ _ [] (fun x hx => absurd hx (List.not_mem_nil x)) v hv

/-- The hash `h` of `getDBAndIndexFor` is a `uint32`. -/
theorem ChecksumIEEE_FormatInt_lt (id : Int) : ChecksumIEEE (FormatInt id) < 2 ^ 32 :=
  ChecksumIEEE_lt _ (FormatInt_bytes id)

set_option maxRecDepth 100000 in
/-- The check value of CRC-32 (IEEE): the checksum of the ASCII string `123456789`. -/
theorem ChecksumIEEE_check_value :
    ChecksumIEEE [49, 50, 51, 52, 53, 54, 55, 56, 57] = 0xCBF43926 ∧
      crc32 [49, 50, 51, 52, 53, 54, 55, 56, 57] = 0xCBF43926 := by
  exact ⟨rfl, rfl⟩

set_option maxRecDepth 100000 in
/-- `FormatInt` on zero, a positive number, a negative number and the least `int64`. -/
theorem FormatInt_examples :
    FormatInt 0 = [48] ∧ FormatInt 1234567 = [49, 50, 51, 52, 53, 54, 55] ∧
      FormatInt (-5) = [45, 53] ∧
      FormatInt (-9223372036854775808)
        = [45, 57, 50, 50, 51, 51, 55, 50, 48, 51, 54, 56, 53, 52, 55, 55, 53, 56, 48, 56] := by
  exact ⟨rfl, rfl, rfl, rfl⟩

theorem digit_char_toNat (d : Nat) (hd : d < 10) : (Char.ofNat (48 + d)).toNat - 48 = d := by
  interval_cases d <;> rfl

theorem charsValue_decimalDigits :
    ∀ (fuel u : Nat), u < fuel →
      charsValue ((decimalDigits fuel u []).map Char.ofNat) = u := by
  intro fuel
  induction fuel with
  | zero => intro u hu; omega
  | succ fuel ih =>
    intro u hu
    unfold decimalDigits
    split
    · rename_i hlt
      simp only [charsValue, List.map_cons, List.map_nil, List.foldl_cons, List.foldl_nil]
      rw [digit_char_toNat u hlt]
      omega
    · rename_i hge
      rw [decimalDigits_acc, List.map_append]
      have hrec := ih (u / 10) (by omega)
      unfold charsValue at hrec ⊢
      rw [List.foldl_append, hrec]
      simp only [List.map_cons, List.map_nil, List.foldl_cons, List.foldl_nil]
      rw [digit_char_toNat (u % 10) (Nat.mod_lt _ (by norm_num))]
      omega

theorem FormatInt_natCast (i : Nat) (hi : i < 2 ^ 64) : FormatInt (i : Int) = formatUint i := by
  have hn : (2 : Nat) ^ 64 = 18446744073709551616 := by norm_num
  rw [hn] at hi
  unfold FormatInt
  have hneg : ¬ ((i : Int) < 0) := by omega
  simp only [hneg, if_false, two_pow_64]
  congr 1
  omega

/-- The file names of two different indices are different. -/
theorem shardFileName_inj (i j : Nat) (hi : i < 2 ^ 64) (hj : j < 2 ^ 64)
    (h : shardFileName i = shardFileName j) : i = j := by
  unfold shardFileName at h
  rw [FormatInt_natCast i hi, FormatInt_natCast j hj] at h
  have hdata := congrArg String.data h
  simp only [String.data_append] at hdata
  have hmid := List.append_cancel_left (List.append_cancel_right hdata)
  have hi' := charsValue_decimalDigits (i + 1) i (Nat.lt_succ_self i)
  have hj' := charsValue_decimalDigits (j + 1) j (Nat.lt_succ_self j)
  unfold formatUint at hmid
  rw [hmid] at hi'
  rw [← hi', hj']

/-! ## Lemmas on the router -/

/-- A well-formed manager whose shard count is not a multiple of `2 ^ 32` routes every
key to a position of its store sequence. -/
theorem getDBAndIndexFor_ok (s : ShardManager) (hwf : s.WF)
    (h32 : s.numShards % 2 ^ 32 ≠ 0) (id : Int) :
    ∃ (db : DB) (idx : Nat), getDBAndIndexFor s id = .ok (db, (idx : Int)) ∧
      idx < s.dbs.length ∧ s.dbs[idx]? = some db := by
  obtain ⟨h1, hlen⟩ := hwf
  rw [two_pow_32] at h32
  unfold getDBAndIndexFor
  by_cases hone : s.numShards = 1
  · have hpos : 0 < s.dbs.length := by omega
    refine ⟨s.dbs[0], 0, ?_, hpos, ?_⟩
    · simp [hone, List.getElem?_eq_getElem hpos]
    · simp [List.getElem?_eq_getElem hpos]
  · have hn : (s.numShards % 2 ^ 32).toNat ≠ 0 := by
      rw [two_pow_32]; omega
    have hle : (s.numShards % 2 ^ 32).toNat ≤ s.dbs.length := by
      rw [two_pow_32]; omega
    have hlt : ChecksumIEEE (FormatInt id) % (s.numShards % 2 ^ 32).toNat < s.dbs.length :=
      lt_of_lt_of_le (Nat.mod_lt _ (Nat.pos_of_ne_zero hn)) hle
    refine ⟨s.dbs[ChecksumIEEE (FormatInt id) % (s.numShards % 2 ^ 32).toNat],
      ChecksumIEEE (FormatInt id) % (s.numShards % 2 ^ 32).toNat, ?_, hlt, ?_⟩
    · rw [if_neg hone]
      dsimp only
      rw [if_neg hn, List.getElem?_eq_getElem hlt]
    · exact List.getElem?_eq_getElem hlt

/-- A manager whose shard count is a positive multiple of `2 ^ 32` panics on every
key: the divisor `uint32(s.numShards)` is zero. -/
theorem getDBAndIndexFor_divideByZero (s : ShardManager) (hne : s.numShards ≠ 1)
    (h32 : s.numShards % 2 ^ 32 = 0) (id : Int) :
    getDBAndIndexFor s id = .error .divideByZero := by
  unfold getDBAndIndexFor
  rw [if_neg hne]
  dsimp only
  rw [h32]
  rfl

/-- The store returned by the router is the one at the returned index. -/
theorem getDBAndIndexFor_position (s : ShardManager) (id : Int) (db : DB) (idx : Int)
    (hr : getDBAndIndexFor s id = .ok (db, idx)) :
    ∃ n : Nat, idx = (n : Int) ∧ s.dbs[n]? = some db := by
  unfold getDBAndIndexFor at hr
  split at hr
  · split at hr
    · rename_i db0 h0
      simp only [Except.ok.injEq, Prod.mk.injEq] at hr
      exact ⟨0, by rw [← hr.2]; rfl, by rw [h0, hr.1]⟩
    · cases hr
  · dsimp only at hr
    split at hr
    · cases hr
    · split at hr
      · rename_i db0 h0
        simp only [Except.ok.injEq, Prod.mk.injEq] at hr
        exact ⟨_, hr.2.symm, by rw [h0, hr.1]⟩
      · cases hr

/-- The index computed by the router depends on the key, the shard count and the
number of stores only. -/
theorem getDBAndIndexFor_index_congr (s t : ShardManager) (id : Int)
    (hn : s.numShards = t.numShards) (hlen : s.dbs.length = t.dbs.length) :
    (getDBAndIndexFor s id).map Prod.snd = (getDBAndIndexFor t id).map Prod.snd := by
  have hsome : ∀ (l : List DB) (n : Nat),
      (match l[n]? with
        | some db => (Except.ok (db, (n : Int)) : Except Panic (DB × Int))
        | none => .error .indexOutOfRange).map Prod.snd
      = if n < l.length then .ok (n : Int) else .error .indexOutOfRange := by
    intro l n
    by_cases hlt : n < l.length
    · rw [List.getElem?_eq_getElem hlt, if_pos hlt]
      rfl
    · rw [List.getElem?_eq_none (by omega), if_neg hlt]
      rfl
  unfold getDBAndIndexFor
  rw [← hn]
  by_cases hone : s.numShards = 1
  · rw [if_pos hone, if_pos hone]
    have h0 := hsome s.dbs 0
    have h1 := hsome t.dbs 0
    simp only [Nat.cast_zero] at h0 h1
    rw [h0, h1, hlen]
  · rw [if_neg hone, if_neg hone]
    dsimp only
    split
    · rfl
    · rw [hsome, hsome, hlen]

/-! ## Lemmas on the constructor -/

theorem openShard_ok (join : String → String → String) (f : Faults) (baseDir : String)
    (i : Nat) (w w' : World) (db : DB) (h : openShard join f baseDir i w = (w', .ok db)) :
    db = shardAt join baseDir w i 0 ∧ w'.nextHandle = w.nextHandle + 1 ∧
      w'.users = w.users ∧
      w'.journal = w.journal ++ setupCalls w.nextHandle (join baseDir (shardFileName i)) := by
  unfold openShard at h
  dsimp only at h
  split at h
  · simp at h
  split at h
  · simp at h
  split at h
  · simp at h
  split at h
  · simp at h
  split at h
  · simp at h
  split at h
  · simp at h
  simp only [Prod.mk.injEq, Except.ok.injEq] at h
  obtain ⟨hw, hdb⟩ := h
  subst hw hdb
  simp [shardAt, World.record, setupCalls]

theorem openShard_succeed (join : String → String → String) (f : Faults) (baseDir : String)
    (i : Nat) (w : World) (hopen : f.sqlOpen i = none) (hexec : ∀ s, f.exec i s = none) :
    ∃ w', openShard join f baseDir i w = (w', .ok (shardAt join baseDir w i 0)) := by
  unfold openShard
  simp [hopen, hexec, shardAt]

theorem openShards_ok (join : String → String → String) (f : Faults) (baseDir : String) :
    ∀ (k i : Nat) (dbs : List DB) (w w' : World) (dbs' : List DB),
      openShards join f baseDir k i dbs w = (w', .ok dbs') →
      dbs' = dbs ++ (List.range k).map (shardAt join baseDir w i) ∧
        w'.nextHandle = w.nextHandle + k ∧ w'.users = w.users := by
  intro k
  induction k with
  | zero =>
    intro i dbs w w' dbs' h
    simp [openShards] at h
    obtain ⟨hw, hd⟩ := h
    subst hw hd
    simp
  | succ k ih =>
    intro i dbs w w' dbs' h
    rw [openShards] at h
    rcases hbody : openShard join f baseDir i w with ⟨w1, r⟩
    rw [hbody] at h
    cases r with
    | error e => simp at h
    | ok db =>
      dsimp only at h
      obtain ⟨hdb, hnext, husers, _⟩ := openShard_ok join f baseDir i w w1 db hbody
      obtain ⟨hd, hn, hu⟩ := ih (i + 1) (dbs ++ [db]) w1 w' dbs' h
      refine ⟨?_, by omega, by rw [hu, husers]⟩
      rw [hd, hdb, List.range_succ_eq_map, List.map_cons, List.map_map, List.append_assoc]
      congr 1
      rw [List.singleton_append]
      congr 1
      apply List.map_congr_left
      intro j _
      have e1 : w.nextHandle + 1 + j = w.nextHandle + (j + 1) := by omega
      have e2 : i + 1 + j = i + (j + 1) := by omega
      show shardAt join baseDir w1 (i + 1) j = shardAt join baseDir w i (j + 1)
      unfold shardAt
      rw [hnext, e1, e2]

theorem openShards_succeed (join : String → String → String) (f : Faults) (baseDir : String) :
    ∀ (k i : Nat) (dbs : List DB) (w : World),
      (∀ j, i ≤ j → j < i + k → f.sqlOpen j = none ∧ ∀ s, f.exec j s = none) →
      ∃ w' dbs', openShards join f baseDir k i dbs w = (w', .ok dbs') := by
  intro k
  induction k with
  | zero =>
    intro i dbs w _
    exact ⟨w, dbs, rfl⟩
  | succ k ih =>
    intro i dbs w hf
    obtain ⟨w1, h1⟩ := openShard_succeed join f baseDir i w (hf i le_rfl (by omega)).1
      (hf i le_rfl (by omega)).2
    obtain ⟨w2, dbs2, h2⟩ := ih (i + 1) (dbs ++ [shardAt join baseDir w i 0]) w1
      (fun j hj hlt => hf j (by omega) (by omega))
    refine ⟨w2, dbs2, ?_⟩
    rw [openShards, h1]
    exact h2

theorem openShards_journal (join : String → String → String) (f : Faults)
    (baseDir : String) :
    ∀ (k i : Nat) (dbs : List DB) (w w' : World) (dbs' : List DB),
      openShards join f baseDir k i dbs w = (w', .ok dbs') →
      (∀ e ∈ w.journal, e ∈ w'.journal) ∧
        ∀ j, j < k →
          Event.sqlOpen (join baseDir (shardFileName (i + j))) (some (w.nextHandle + j))
            ∈ w'.journal := by
  intro k
  induction k with
  | zero =>
    intro i dbs w w' dbs' h
    simp [openShards] at h
    obtain ⟨hw, _⟩ := h
    subst hw
    exact ⟨fun e he => he, fun j hj => absurd hj (Nat.not_lt_zero j)⟩
  | succ k ih =>
    intro i dbs w w' dbs' h
    rw [openShards] at h
    rcases hbody : openShard join f baseDir i w with ⟨w1, r⟩
    rw [hbody] at h
    cases r with
    | error e => simp at h
    | ok db =>
      dsimp only at h
      obtain ⟨_, hnext, _, hj1⟩ := openShard_ok join f baseDir i w w1 db hbody
      obtain ⟨hmono, hmem⟩ := ih (i + 1) (dbs ++ [db]) w1 w' dbs' h
      have hsub : ∀ e ∈ w.journal, e ∈ w1.journal := by
        intro e he
        rw [hj1]
        exact List.mem_append_left _ he
      refine ⟨fun e he => hmono e (hsub e he), ?_⟩
      intro j hj
      cases j with
      | zero =>
        apply hmono
        rw [hj1]
        apply List.mem_append_right
        simp [setupCalls]
      | succ j =>
        have := hmem j (by omega)
        have e1 : w.nextHandle + 1 + j = w.nextHandle + (j + 1) := by omega
        have e2 : i + 1 + j = i + (j + 1) := by omega
        rw [hnext, e1, e2] at this
        exact this

/-- Whenever `NewShardManager` returns a manager, the shard count is `num ≥ 1`, and
the store at position `i` is the pool opened on the file of index `i`. -/
theorem NewShardManager_ok (join : String → String → String) (f : Faults) (num : Int)
    (baseDir : String) (w w' : World) (m : ShardManager)
    (h : NewShardManager join f num baseDir w = (w', .ok m)) :
    1 ≤ num ∧ m.numShards = num ∧
      m.dbs = (List.range num.toNat).map
        (fun i => { handle := w.nextHandle + i,
                    path := join (effectiveBaseDir baseDir) (shardFileName i) }) ∧
      w'.users = w.users := by
  unfold NewShardManager at h
  split at h
  · simp at h
  dsimp only at h
  split at h
  · simp at h
  rename_i hnum _ _
  rcases hloop : openShards join f (if baseDir = "" then "temp" else baseDir) num.toNat 0 []
      (w.record (.mkdirAll (if baseDir = "" then "temp" else baseDir))) with ⟨w1, r⟩
  rw [hloop] at h
  cases r with
  | error e => simp at h
  | ok dbs =>
    simp only [Prod.mk.injEq, Except.ok.injEq] at h
    obtain ⟨hw, hm⟩ := h
    subst hw hm
    obtain ⟨hd, _, hu⟩ := openShards_ok join f _ _ _ _ _ _ _ hloop
    refine ⟨by omega, rfl, ?_, ?_⟩
    · rw [hd]
      simp [shardAt, effectiveBaseDir, World.record]
    · rw [hu]
      rfl

/-- A manager returned by `NewShardManager` satisfies the invariant. -/
theorem NewShardManager_wf (join : String → String → String) (f : Faults) (num : Int)
    (baseDir : String) (w w' : World) (m : ShardManager)
    (h : NewShardManager join f num baseDir w = (w', .ok m)) : m.WF := by
  obtain ⟨h1, hn, hd, _⟩ := NewShardManager_ok join f num baseDir w w' m h
  refine ⟨by omega, ?_⟩
  rw [hd, hn]
  simp
  omega

/-- When every step succeeds, `NewShardManager` returns a manager. -/
theorem NewShardManager_succeed (join : String → String → String) (f : Faults) (num : Int)
    (baseDir : String) (w : World) (hnum : 1 ≤ num) (hf : f.AllSucceed num) :
    ∃ w' m, NewShardManager join f num baseDir w = (w', .ok m) := by
  obtain ⟨hmk, hst⟩ := hf
  obtain ⟨w1, dbs1, h1⟩ := openShards_succeed join f (effectiveBaseDir baseDir) num.toNat 0 []
    (w.record (.mkdirAll (effectiveBaseDir baseDir)))
    (fun j _ hlt => hst j (by omega))
  refine ⟨w1, { dbs := dbs1, numShards := num }, ?_⟩
  unfold NewShardManager
  rw [if_neg (by omega)]
  dsimp only
  rw [hmk]
  unfold effectiveBaseDir at h1
  rw [h1]

/-- The stores of a manager returned by `NewShardManager` are opened on pairwise
different files and have pairwise different handles, when the shard count is an
`int` and `filepath.Join` maps different file names of one directory to different
paths. -/
theorem NewShardManager_distinct (join : String → String → String) (f : Faults) (num : Int)
    (baseDir : String) (w w' : World) (m : ShardManager)
    (h : NewShardManager join f num baseDir w = (w', .ok m))
    (hnum : num < 2 ^ 63)
    (hjoin : ∀ dir a b, join dir a = join dir b → a = b) :
    m.DistinctFiles ∧ (m.dbs.map DB.handle).Nodup := by
  obtain ⟨_, _, hd, _⟩ := NewShardManager_ok join f num baseDir w w' m h
  have h63 : (2 : Int) ^ 63 = 9223372036854775808 := by norm_num
  have hn64 : (2 : Nat) ^ 64 = 18446744073709551616 := by norm_num
  rw [h63] at hnum
  unfold ShardManager.DistinctFiles
  rw [hd, List.map_map, List.map_map]
  constructor
  · apply List.Nodup.map_on _ (List.nodup_range _)
    intro x hx y hy hxy
    have hx' := List.mem_range.mp hx
    have hy' := List.mem_range.mp hy
    exact shardFileName_inj x y (by rw [hn64]; omega) (by rw [hn64]; omega)
      (hjoin _ _ _ hxy)
  · apply List.Nodup.map_on _ (List.nodup_range _)
    intro x _ y _ hxy
    simp only [Function.comp] at hxy
    omega

/-- On a manager returned by `NewShardManager` whose shard count is not a multiple of
`2 ^ 32`, `getDBAndIndexFor` returns, for every key, an index in `[0, numShards)` and
the store at that index; the manager has `numShards` stores. -/
theorem getDBAndIndexFor_on_constructed_manager (join : String → String → String)
    (f : Faults) (num : Int) (baseDir : String) (w w' : World) (m : ShardManager)
    (h : NewShardManager join f num baseDir w = (w', .ok m))
    (h32 : num % 2 ^ 32 ≠ 0) (id : Int) :
    (m.dbs.length : Int) = m.numShards ∧
      ∃ (db : DB) (idx : Nat), getDBAndIndexFor m id = .ok (db, (idx : Int)) ∧
        (idx : Int) < m.numShards ∧ m.dbs[idx]? = some db := by
  have hwf := NewShardManager_wf join f num baseDir w w' m h
  obtain ⟨_, hn, _, _⟩ := NewShardManager_ok join f num baseDir w w' m h
  obtain ⟨db, idx, hr, hlt, hdb⟩ := getDBAndIndexFor_ok m hwf (by rw [hn]; exact h32) id
  refine ⟨hwf.2, db, idx, hr, ?_, hdb⟩
  rw [← hwf.2]
  exact_mod_cast hlt

theorem closedHandles_append (a b : List Event) :
    closedHandles (a ++ b) = closedHandles a ++ closedHandles b := by
  induction a with
  | nil => rfl
  | cons e rest ih =>
    cases e <;> simp [closedHandles, ih]

theorem openShard_close_calls (join : String → String → String) (f : Faults)
    (baseDir : String) (i : Nat) (w : World) :
    ∃ l : List Nat,
      closedHandles (openShard join f baseDir i w).1.journal = closedHandles w.journal ++ l ∧
        (∀ h ∈ l, h + 1 = (openShard join f baseDir i w).1.nextHandle) ∧ l.length ≤ 1 ∧
        (∀ db, (openShard join f baseDir i w).2 = .ok db → l = []) := by
  unfold openShard
  dsimp only
  split
  · exact ⟨[], by simp [World.record, closedHandles_append, closedHandles]⟩
  split
  · exact ⟨[w.nextHandle], by simp [World.record, closedHandles_append, closedHandles]⟩
  split
  · exact ⟨[w.nextHandle], by simp [World.record, closedHandles_append, closedHandles]⟩
  split
  · exact ⟨[w.nextHandle], by simp [World.record, closedHandles_append, closedHandles]⟩
  split
  · exact ⟨[w.nextHandle], by simp [World.record, closedHandles_append, closedHandles]⟩
  split
  · exact ⟨[w.nextHandle], by simp [World.record, closedHandles_append, closedHandles]⟩
  · exact ⟨[], by simp [World.record, closedHandles_append, closedHandles]⟩

theorem openShards_close_calls (join : String → String → String) (f : Faults)
    (baseDir : String) :
    ∀ (k i : Nat) (dbs : List DB) (w : World),
      ∃ l : List Nat,
        closedHandles (openShards join f baseDir k i dbs w).1.journal
            = closedHandles w.journal ++ l ∧
          (∀ h ∈ l, h + 1 = (openShards join f baseDir k i dbs w).1.nextHandle) ∧
          l.length ≤ 1 := by
  intro k
  induction k with
  | zero =>
    intro i dbs w
    exact ⟨[], by simp [openShards]⟩
  | succ k ih =>
    intro i dbs w
    rw [openShards]
    obtain ⟨l, hl, hlast, hlen, hok⟩ := openShard_close_calls join f baseDir i w
    rcases hb : openShard join f baseDir i w with ⟨w1, r⟩
    rw [hb] at hl hlast hok
    cases r with
    | error e => exact ⟨l, hl, hlast, hlen⟩
    | ok db =>
      dsimp only
      obtain ⟨l2, hl2, hlast2, hlen2⟩ := ih (i + 1) (dbs ++ [db]) w1
      have hnil := hok db rfl
      subst hnil
      rw [List.append_nil] at hl
      rw [hl] at hl2
      exact ⟨l2, hl2, hlast2, hlen2⟩

/-- Whatever the shard count and the step that fails, `NewShardManager` calls `Close`
on at most one pool, and that pool is the last one it opened: no pool opened before
it is closed. -/
theorem NewShardManager_closes_last_only (join : String → String → String) (f : Faults)
    (num : Int) (baseDir : String) (w : World) :
    ∃ l : List Nat,
      closedHandles (NewShardManager join f num baseDir w).1.journal
          = closedHandles w.journal ++ l ∧
        (∀ h ∈ l, h + 1 = (NewShardManager join f num baseDir w).1.nextHandle) ∧
        l.length ≤ 1 := by
  unfold NewShardManager
  split
  · exact ⟨[], by simp⟩
  dsimp only
  split
  · exact ⟨[], by simp [World.record, closedHandles_append, closedHandles]⟩
  · obtain ⟨l, hl, hlast, hlen⟩ := openShards_close_calls join f
      (if baseDir = "" then "temp" else baseDir)
      num.toNat 0 [] (w.record (.mkdirAll (if baseDir = "" then "temp" else baseDir)))
    rcases hloop : openShards join f (if baseDir = "" then "temp" else baseDir)
      num.toNat 0 [] (w.record (.mkdirAll (if baseDir = "" then "temp" else baseDir)))
      with ⟨w1, r⟩
    rw [hloop] at hl hlast
    simp only [World.record, closedHandles_append, closedHandles, List.append_nil] at hl
    cases r with
    | error e => exact ⟨l, hl, hlast, hlen⟩
    | ok dbs => exact ⟨l, hl, hlast, hlen⟩

/-- The managers of the concrete inputs are the ones that `NewShardManager` returns
for one and for three shards in the directory `data`, and with an empty directory
name the files are created under `temp`. -/
theorem concrete_managers_constructed :
    (NewShardManager joinSlash noFaults 1 "data" emptyWorld).2 = .ok oneShard ∧
      (NewShardManager joinSlash noFaults 3 "data" emptyWorld).2 = .ok threeShards ∧
      (NewShardManager joinSlash noFaults 2 "" emptyWorld).2
        = .ok { dbs := [{ handle := 0, path := "temp/shard_0.db" },
                        { handle := 1, path := "temp/shard_1.db" }]
                numShards := 2 } := by
  exact ⟨rfl, rfl, rfl⟩

/-! ## Lemmas on `Close`, `InsertUser` and `GetUser` -/

theorem closeLoop_eq (closeErr : Nat → Option BackendErr) :
    ∀ (dbs : List DB) (i : Nat) (allErrors : List BackendErr) (w : World),
      closeLoop closeErr dbs i allErrors w =
        ({ w with journal := w.journal ++ dbs.map (fun db => Event.close db.handle) },
         allErrors ++ (List.range dbs.length).filterMap (fun j => closeErr (i + j))) := by
  intro dbs
  induction dbs with
  | nil =>
    intro i allErrors w
    simp [closeLoop]
  | cons db rest ih =>
    intro i allErrors w
    have hrange : (List.range (rest.length + 1)).filterMap (fun j => closeErr (i + j))
        = (closeErr i).toList ++
          (List.range rest.length).filterMap (fun j => closeErr (i + 1 + j)) := by
      rw [List.range_succ_eq_map, List.filterMap_cons]
      have hcomp : List.filterMap (fun j => closeErr (i + j)) (List.map Nat.succ (List.range rest.length))
          = List.filterMap (fun j => closeErr (i + 1 + j)) (List.range rest.length) := by
        rw [List.filterMap_map]
        apply List.filterMap_congr
        intro j _
        show closeErr (i + (j + 1)) = closeErr (i + 1 + j)
        congr 1
        omega
      rw [hcomp]
      cases hc : closeErr i <;> simp [hc]
    rw [closeLoop]
    cases hc : closeErr i with
    | none =>
      simp only [ih, World.record, hc]
      simp [hrange, hc]
    | some err =>
      simp only [ih, World.record, hc]
      simp [hrange, hc]

theorem insertOrIgnore_users (w : World) (path : String) (id : Int) (u p : String)
    (q : String) (k : Int) :
    (w.insertOrIgnore path id u p).users q k
      = if q = path ∧ k = id ∧ w.users path id = none then some (u, p) else w.users q k := by
  unfold World.insertOrIgnore
  cases h : w.users path id with
  | none =>
    by_cases hq : q = path ∧ k = id
    · simp [hq]
    · have : ¬ (q = path ∧ k = id ∧ True) := by simpa using hq
      simp [hq]
  | some r => simp

theorem insertOrIgnore_nextHandle (w : World) (path : String) (id : Int) (u p : String) :
    (w.insertOrIgnore path id u p).nextHandle = w.nextHandle := by
  unfold World.insertOrIgnore
  cases w.users path id <;> rfl

theorem insertOrIgnore_journal (w : World) (path : String) (id : Int) (u p : String) :
    (w.insertOrIgnore path id u p).journal = w.journal := by
  unfold World.insertOrIgnore
  cases w.users path id <;> rfl

theorem InsertUser_sm (st : State) (fault : Option BackendErr) (id : Int) (u p : String) :
    (InsertUser st fault id u p).1.sm = st.sm := by
  unfold InsertUser
  cases getDBAndIndexFor st.sm id with
  | error e => rfl
  | ok r => cases fault <;> rfl

theorem GetUser_sm (st : State) (fault : Option BackendErr) (id : Int) :
    (GetUser st fault id).1.sm = st.sm := by
  unfold GetUser
  cases getDBAndIndexFor st.sm id with
  | error e => rfl
  | ok r =>
    cases fault with
    | some e => rfl
    | none =>
      dsimp only
      split <;> rfl

theorem GetUser_users (st : State) (fault : Option BackendErr) (id : Int) :
    (GetUser st fault id).1.world.users = st.world.users := by
  unfold GetUser
  cases getDBAndIndexFor st.sm id with
  | error e => rfl
  | ok r =>
    cases fault with
    | some e => rfl
    | none =>
      dsimp only
      split <;> rfl

theorem InsertUser_users_of_routed (st : State) (fault : Option BackendErr) (id : Int)
    (u p : String) (db : DB) (idx : Int) (hr : getDBAndIndexFor st.sm id = .ok (db, idx))
    (q : String) (k : Int) :
    (InsertUser st fault id u p).1.world.users q k
      = if fault = none ∧ q = db.path ∧ k = id ∧ st.world.users db.path id = none
        then some (u, p) else st.world.users q k := by
  unfold InsertUser
  rw [hr]
  cases fault with
  | some e => simp [World.record]
  | none =>
    dsimp only
    rw [insertOrIgnore_users]
    simp [World.record]

theorem InsertUser_users_of_panic (st : State) (fault : Option BackendErr) (id : Int)
    (u p : String) (e : Panic) (hr : getDBAndIndexFor st.sm id = .error e) :
    (InsertUser st fault id u p).1 = st ∧ (InsertUser st fault id u p).2 = .error e := by
  unfold InsertUser
  rw [hr]
  exact ⟨rfl, rfl⟩

theorem InsertUser_result_of_routed (st : State) (fault : Option BackendErr) (id : Int)
    (u p : String) (db : DB) (idx : Int) (hr : getDBAndIndexFor st.sm id = .ok (db, idx)) :
    (InsertUser st fault id u p).2 = .ok (fault.map GoError.backend) := by
  unfold InsertUser
  rw [hr]
  cases fault <;> rfl

theorem GetUser_result_of_routed (st : State) (fault : Option BackendErr) (id : Int)
    (db : DB) (idx : Int) (hr : getDBAndIndexFor st.sm id = .ok (db, idx)) :
    (GetUser st fault id).2 =
      match fault with
      | some e => .ok ("", "", some (.backend e))
      | none =>
        match st.world.users db.path id with
        | none => .ok ("", "", some .errNoRows)
        | some (uname, payload) => .ok (uname, payload, none) := by
  unfold GetUser
  rw [hr]
  cases fault with
  | some e => rfl
  | none =>
    dsimp only [World.record]
    cases st.world.users db.path id with
    | none => rfl
    | some r => rfl

theorem routedRecord_of_routed (st : State) (id : Int) (db : DB) (idx : Int)
    (hr : getDBAndIndexFor st.sm id = .ok (db, idx)) :
    routedRecord st id = st.world.users db.path id := by
  unfold routedRecord
  rw [hr]

/-- Round trip on every manager on which the key is routed: when the key has no
record in its shard and the backend executes the insert and the query, the insert
returns no error and the lookup returns what was inserted. -/
theorem InsertUser_GetUser_roundtrip (st : State) (hwf : st.sm.WF)
    (h32 : st.sm.numShards % 2 ^ 32 ≠ 0) (id : Int) (u p : String)
    (hfresh : routedRecord st id = none) :
    (InsertUser st none id u p).2 = .ok none ∧
      (GetUser (InsertUser st none id u p).1 none id).2 = .ok (u, p, none) := by
  obtain ⟨db, idx, hr, _, _⟩ := getDBAndIndexFor_ok st.sm hwf h32 id
  rw [routedRecord_of_routed st id db idx hr] at hfresh
  have hr' : getDBAndIndexFor (InsertUser st none id u p).1.sm id = .ok (db, (idx : Int)) := by
    rw [InsertUser_sm]; exact hr
  refine ⟨InsertUser_result_of_routed st none id u p db idx hr, ?_⟩
  rw [GetUser_result_of_routed _ none id db idx hr']
  dsimp only
  rw [InsertUser_users_of_routed st none id u p db idx hr]
  simp [hfresh]

theorem runOps_sm (ops : List Op) : ∀ st : State, (runOps st ops).sm = st.sm := by
  induction ops with
  | nil => intro st; rfl
  | cons op rest ih =>
    intro st
    show (runOps (Op.apply st op) rest).sm = st.sm
    rw [ih]
    cases op with
    | insert fault id u p => exact InsertUser_sm st fault id u p
    | get fault id => exact GetUser_sm st fault id

/-! ## The claims -/

/-- C1 (the code departs from it).  `NewShardManager` accepts the shard count
`2 ^ 32` when every step succeeds, and returns a manager with `2 ^ 32` stores on which
`getDBAndIndexFor` panics with a division by zero for every key instead of returning
an index: `uint32(s.numShards)` is `0`. -/
theorem getDBAndIndexFor_panics_on_constructed_manager :
    ∃ (w' : World) (m : ShardManager),
      NewShardManager joinSlash noFaults (2 ^ 32) "data" emptyWorld = (w', .ok m) ∧
        m.numShards = 2 ^ 32 ∧ (m.dbs.length : Int) = m.numShards ∧
        ∀ id : Int, getDBAndIndexFor m id = .error .divideByZero := by
  obtain ⟨w', m, h⟩ := NewShardManager_succeed joinSlash noFaults (2 ^ 32) "data" emptyWorld
    (by norm_num) ⟨rfl, fun _ _ => ⟨rfl, fun _ => rfl⟩⟩
  obtain ⟨_, hn, _, _⟩ := NewShardManager_ok _ _ _ _ _ _ _ h
  have hwf := NewShardManager_wf _ _ _ _ _ _ _ h
  refine ⟨w', m, h, hn, hwf.2, ?_⟩
  intro id
  apply getDBAndIndexFor_divideByZero
  · rw [hn]; norm_num
  · rw [hn]; norm_num

/-- C2.  The index computed by `getDBAndIndexFor` is the one of the reference router:
for every 64-bit key and every manager with as many stores as shards, the index is `0`
when there is one shard, and for a shard count `n` with `2 ≤ n < 2 ^ 32` it is the
CRC-32 (IEEE) of the decimal string of the key (with a leading minus sign for a
negative key) modulo `n`; the store returned is the one at that index.  The code
computes the string with `FormatInt` and the checksum with the table of the library;
the reference uses the plain decimal string and the bit-by-bit checksum. -/
theorem getDBAndIndexFor_eq_referenceRoute (s : ShardManager) (id : Int)
    (hlo : -2 ^ 63 ≤ id) (hhi : id < 2 ^ 63)
    (hlen : (s.dbs.length : Int) = s.numShards)
    (hn : s.numShards = 1 ∨ (2 ≤ s.numShards ∧ s.numShards < 2 ^ 32)) :
    ∃ db : DB, getDBAndIndexFor s id = .ok (db, referenceRoute id s.numShards) ∧
      s.dbs[(referenceRoute id s.numShards).toNat]? = some db ∧
      (s.numShards = 1 → referenceRoute id s.numShards = 0) ∧
      (2 ≤ s.numShards → referenceRoute id s.numShards
          = (crc32 (decimalString id) : Int) % s.numShards) := by
  rcases hn with hone | ⟨h2, hlt⟩
  · have hpos : 0 < s.dbs.length := by omega
    refine ⟨s.dbs[0], ?_, ?_, ?_, ?_⟩
    · unfold getDBAndIndexFor referenceRoute
      rw [if_pos hone, if_pos hone, List.getElem?_eq_getElem hpos]
    · unfold referenceRoute
      rw [if_pos hone]
      exact List.getElem?_eq_getElem hpos
    · intro _
      unfold referenceRoute
      rw [if_pos hone]
    · intro h
      omega
  · have hone : s.numShards ≠ 1 := by omega
    rw [two_pow_32] at hlt
    have hmod : s.numShards % 2 ^ 32 = s.numShards := by
      rw [two_pow_32]; omega
    have hcast : ((s.dbs.length : Nat) : Int) = s.numShards := hlen
    have hn0 : s.dbs.length ≠ 0 := by omega
    have htoNat : (s.numShards % 2 ^ 32).toNat = s.dbs.length := by
      rw [hmod, ← hcast]; exact Int.toNat_natCast _
    have hidx : ChecksumIEEE (decimalString id) % s.dbs.length < s.dbs.length :=
      Nat.mod_lt _ (Nat.pos_of_ne_zero hn0)
    have href : referenceRoute id s.numShards
        = ((ChecksumIEEE (decimalString id) % s.dbs.length : Nat) : Int) := by
      unfold referenceRoute
      rw [if_neg hone, ← hcast, Int.natCast_mod, ChecksumIEEE_eq_crc32]
    refine ⟨s.dbs[ChecksumIEEE (decimalString id) % s.dbs.length], ?_, ?_, ?_, ?_⟩
    · rw [href]
      unfold getDBAndIndexFor
      rw [if_neg hone]
      dsimp only
      rw [htoNat, if_neg hn0, FormatInt_eq_decimalString id hlo hhi,
        List.getElem?_eq_getElem hidx]
    · rw [href, Int.toNat_natCast]
      exact List.getElem?_eq_getElem hidx
    · intro h
      exact absurd h hone
    · intro _
      unfold referenceRoute
      rw [if_neg hone]

/-- The theorem on the reference router at the manager of three shards and the key 1. -/
theorem getDBAndIndexFor_eq_referenceRoute_witness :
    (-2 ^ 63 ≤ (1 : Int) ∧ (1 : Int) < 2 ^ 63 ∧
      (threeShards.dbs.length : Int) = threeShards.numShards ∧
      (threeShards.numShards = 1 ∨ (2 ≤ threeShards.numShards ∧ threeShards.numShards < 2 ^ 32))) ∧
    ∃ db : DB, getDBAndIndexFor threeShards 1 = .ok (db, referenceRoute 1 threeShards.numShards) ∧
      threeShards.dbs[(referenceRoute 1 threeShards.numShards).toNat]? = some db ∧
      (threeShards.numShards = 1 → referenceRoute 1 threeShards.numShards = 0) ∧
      (2 ≤ threeShards.numShards → referenceRoute 1 threeShards.numShards
          = (crc32 (decimalString 1) : Int) % threeShards.numShards) :=
  ⟨⟨by norm_num, by norm_num, by decide, Or.inr ⟨by decide, by decide⟩⟩,
    getDBAndIndexFor_eq_referenceRoute threeShards 1 (by norm_num) (by norm_num) (by decide)
      (Or.inr ⟨by decide, by decide⟩)⟩

/-- C3 (the code departs from it).  On the manager that `NewShardManager` returns for
the shard count `2 ^ 32`, `InsertUser` panics with a division by zero before any
statement reaches the backend, instead of returning no error; no record is stored. -/
theorem InsertUser_panics_on_constructed_manager :
    ∃ (w' : World) (m : ShardManager),
      NewShardManager joinSlash noFaults (2 ^ 32) "data" emptyWorld = (w', .ok m) ∧
        (InsertUser { sm := m, world := w' } none 1 "u1" "p1").2 = .error .divideByZero ∧
        (InsertUser { sm := m, world := w' } none 1 "u1" "p1").1.world.users = w'.users ∧
        (GetUser { sm := m, world := w' } none 1).2 = .error .divideByZero := by
  obtain ⟨w', m, h⟩ := NewShardManager_succeed joinSlash noFaults (2 ^ 32) "data" emptyWorld
    (by norm_num) ⟨rfl, fun _ _ => ⟨rfl, fun _ => rfl⟩⟩
  obtain ⟨_, hn, _, _⟩ := NewShardManager_ok _ _ _ _ _ _ _ h
  have hp : getDBAndIndexFor m 1 = .error .divideByZero := by
    apply getDBAndIndexFor_divideByZero
    · rw [hn]; norm_num
    · rw [hn]; norm_num
  refine ⟨w', m, h, ?_, ?_, ?_⟩
  · exact (InsertUser_users_of_panic { sm := m, world := w' } none 1 "u1" "p1" _ hp).2
  · rw [(InsertUser_users_of_panic { sm := m, world := w' } none 1 "u1" "p1" _ hp).1]
  · unfold GetUser
    rw [hp]

/-- C4, as stated, fails.  On a key that already has a record (here the one stored by
`InsertUser(7, "old", "x")`), two inserts followed by a lookup return the record that
was there, not the arguments of the first of the two inserts; and on a fresh key, a
second insert that the backend refuses returns the error of the backend. -/
theorem first_insert_does_not_win_on_present_id :
    routedRecord stateWithRecord 7 = some ("old", "x") ∧
      (InsertUser (InsertUser stateWithRecord none 7 "u1" "p1").1 none 7 "u2" "p2").2
        = .ok none ∧
      (GetUser (InsertUser (InsertUser stateWithRecord none 7 "u1" "p1").1 none 7 "u2" "p2").1
          none 7).2 = .ok ("old", "x", none) ∧
      (GetUser (InsertUser (InsertUser stateWithRecord none 7 "u1" "p1").1 none 7 "u2" "p2").1
          none 7).2 ≠ .ok ("u1", "p1", none) ∧
      (InsertUser (InsertUser stateOneShard none 7 "u1" "p1").1
          (some { msg := "database is locked" }) 7 "u2" "p2").2
        = .ok (some (.backend { msg := "database is locked" })) := by
  refine ⟨rfl, rfl, rfl, ?_, rfl⟩
  intro h
  have h2 : (GetUser (InsertUser (InsertUser stateWithRecord none 7 "u1" "p1").1
      none 7 "u2" "p2").1 none 7).2 = .ok ("old", "x", none) := rfl
  rw [h2] at h
  simp at h

/-- C4, amended.  On a manager on which keys are routed: when the key has no record in
its shard and the backend executes the first insert, a second insert of the same key
returns the answer of the backend (no error when the backend executes it), leaves
every table unchanged, and a lookup that the backend executes returns the username
and payload of the first insert.  More generally an insert of a key that has a record
in its shard leaves every table and the manager unchanged, whatever the backend
answers, and returns no error when the backend executes it. -/
theorem InsertUser_first_write_wins (st : State) (hwf : st.sm.WF)
    (h32 : st.sm.numShards % 2 ^ 32 ≠ 0) (id : Int) (u1 p1 u2 p2 : String) :
    (routedRecord st id = none → ∀ fault2 : Option BackendErr,
      (InsertUser (InsertUser st none id u1 p1).1 fault2 id u2 p2).2
          = .ok (fault2.map GoError.backend) ∧
        (InsertUser (InsertUser st none id u1 p1).1 fault2 id u2 p2).1.world.users
          = (InsertUser st none id u1 p1).1.world.users ∧
        (GetUser (InsertUser (InsertUser st none id u1 p1).1 fault2 id u2 p2).1 none id).2
          = .ok (u1, p1, none)) ∧
    (∀ r, routedRecord st id = some r → ∀ fault : Option BackendErr,
      (InsertUser st fault id u2 p2).1.world.users = st.world.users ∧
        (InsertUser st fault id u2 p2).1.sm = st.sm ∧
        (fault = none → (InsertUser st fault id u2 p2).2 = .ok none)) := by
  obtain ⟨db, idx, hr, _, _⟩ := getDBAndIndexFor_ok st.sm hwf h32 id
  rw [routedRecord_of_routed st id db idx hr]
  constructor
  · intro hfresh fault2
    have hr1 : getDBAndIndexFor (InsertUser st none id u1 p1).1.sm id = .ok (db, (idx : Int)) := by
      rw [InsertUser_sm]; exact hr
    have hr2 : getDBAndIndexFor
        (InsertUser (InsertUser st none id u1 p1).1 fault2 id u2 p2).1.sm id
          = .ok (db, (idx : Int)) := by
      rw [InsertUser_sm]; exact hr1
    have hstored : (InsertUser st none id u1 p1).1.world.users db.path id = some (u1, p1) := by
      rw [InsertUser_users_of_routed st none id u1 p1 db idx hr]
      simp [hfresh]
    have hsame : (InsertUser (InsertUser st none id u1 p1).1 fault2 id u2 p2).1.world.users
        = (InsertUser st none id u1 p1).1.world.users := by
      funext q k
      rw [InsertUser_users_of_routed _ fault2 id u2 p2 db idx hr1, hstored]
      simp
    refine ⟨InsertUser_result_of_routed _ fault2 id u2 p2 db idx hr1, hsame, ?_⟩
    rw [GetUser_result_of_routed _ none id db idx hr2]
    dsimp only
    rw [hsame, hstored]
  · intro r hpresent fault
    refine ⟨?_, InsertUser_sm st fault id u2 p2, ?_⟩
    · funext q k
      rw [InsertUser_users_of_routed st fault id u2 p2 db idx hr, hpresent]
      simp
    · intro hnone
      rw [InsertUser_result_of_routed st fault id u2 p2 db idx hr, hnone]
      rfl

/-- The theorem on the first write at the state of one shard with empty tables and the
key 7. -/
theorem InsertUser_first_write_wins_witness :
    ((stateOneShard.sm.WF ∧ stateOneShard.sm.numShards % 2 ^ 32 ≠ 0 ∧
        routedRecord stateOneShard 7 = none) ∧
      ((InsertUser (InsertUser stateOneShard none 7 "u1" "p1").1 none 7 "u2" "p2").2
          = .ok ((none : Option BackendErr).map GoError.backend) ∧
        (InsertUser (InsertUser stateOneShard none 7 "u1" "p1").1 none 7 "u2" "p2").1.world.users
          = (InsertUser stateOneShard none 7 "u1" "p1").1.world.users ∧
        (GetUser (InsertUser (InsertUser stateOneShard none 7 "u1" "p1").1 none 7 "u2" "p2").1
          none 7).2 = .ok ("u1", "p1", none))) ∧
    ((stateWithRecord.sm.WF ∧ stateWithRecord.sm.numShards % 2 ^ 32 ≠ 0 ∧
        routedRecord stateWithRecord 7 = some ("old", "x")) ∧
      ((InsertUser stateWithRecord (some { msg := "busy" }) 7 "u2" "p2").1.world.users
          = stateWithRecord.world.users ∧
        (InsertUser stateWithRecord (some { msg := "busy" }) 7 "u2" "p2").1.sm
          = stateWithRecord.sm ∧
        ((some { msg := "busy" } : Option BackendErr) = none →
          (InsertUser stateWithRecord (some { msg := "busy" }) 7 "u2" "p2").2 = .ok none))) :=
  ⟨⟨⟨⟨by decide, by decide⟩, by decide, rfl⟩,
      (InsertUser_first_write_wins stateOneShard ⟨by decide, by decide⟩ (by decide) 7
        "u1" "p1" "u2" "p2").1 rfl none⟩,
    ⟨⟨⟨by decide, by decide⟩, by decide, rfl⟩,
      (InsertUser_first_write_wins stateWithRecord ⟨by decide, by decide⟩ (by decide) 7
        "u1" "p1" "u2" "p2").2 ("old", "x") rfl (some { msg := "busy" })⟩⟩

/-- C5, as stated, fails: for a key that has no record, a lookup that the backend
answers with an error returns that error, not `sql.ErrNoRows`. -/
theorem GetUser_returns_backend_error_for_absent_id :
    routedRecord stateOneShard 11 = none ∧
      (GetUser stateOneShard (some { msg := "database is locked" }) 11).2
        = .ok ("", "", some (.backend { msg := "database is locked" })) ∧
      (GetUser stateOneShard (some { msg := "database is locked" }) 11).2
        ≠ .ok ("", "", some .errNoRows) := by
  refine ⟨rfl, rfl, ?_⟩
  intro h
  have h2 : (GetUser stateOneShard (some { msg := "database is locked" }) 11).2
      = .ok ("", "", some (.backend { msg := "database is locked" })) := rfl
  rw [h2] at h
  simp at h

/-- C5, amended.  On a manager on which keys are routed: for a key that has no record
in its shard, a lookup that the backend executes returns `sql.ErrNoRows` with an
empty username and an empty payload; whatever the backend answers, a lookup returns
`sql.ErrNoRows` only when the key has no record in its shard, and then with empty
strings; and an error of the backend is the error returned, which is never
`sql.ErrNoRows`. -/
theorem GetUser_not_found (st : State) (hwf : st.sm.WF)
    (h32 : st.sm.numShards % 2 ^ 32 ≠ 0) (id : Int) :
    (routedRecord st id = none →
      (GetUser st none id).2 = .ok ("", "", some .errNoRows)) ∧
    (∀ (fault : Option BackendErr) (uname payload : String),
      (GetUser st fault id).2 = .ok (uname, payload, some .errNoRows) →
        routedRecord st id = none ∧ uname = "" ∧ payload = "") ∧
    (∀ e : BackendErr, ∃ uname payload : String,
      (GetUser st (some e) id).2 = .ok (uname, payload, some (.backend e))) := by
  obtain ⟨db, idx, hr, _, _⟩ := getDBAndIndexFor_ok st.sm hwf h32 id
  rw [routedRecord_of_routed st id db idx hr]
  refine ⟨?_, ?_, ?_⟩
  · intro hnone
    rw [GetUser_result_of_routed st none id db idx hr]
    dsimp only
    rw [hnone]
  · intro fault uname payload h
    rw [GetUser_result_of_routed st fault id db idx hr] at h
    cases fault with
    | some e => simp at h
    | none =>
      dsimp only at h
      cases hrec : st.world.users db.path id with
      | none =>
        rw [hrec] at h
        simp only [Except.ok.injEq, Prod.mk.injEq] at h
        exact ⟨rfl, h.1.symm, h.2.1.symm⟩
      | some r =>
        rw [hrec] at h
        simp at h
  · intro e
    rw [GetUser_result_of_routed st (some e) id db idx hr]
    exact ⟨"", "", rfl⟩

/-- The theorem on absent keys at the state of one shard with empty tables and the
key 11. -/
theorem GetUser_not_found_witness :
    ((stateOneShard.sm.WF ∧ stateOneShard.sm.numShards % 2 ^ 32 ≠ 0 ∧
        routedRecord stateOneShard 11 = none) ∧
      (GetUser stateOneShard none 11).2 = .ok ("", "", some .errNoRows)) ∧
    ((GetUser stateOneShard none 11).2 = .ok ("", "", some .errNoRows) ∧
      (routedRecord stateOneShard 11 = none ∧ "" = "" ∧ "" = "")) :=
  ⟨⟨⟨⟨by decide, by decide⟩, by decide, rfl⟩,
      (GetUser_not_found stateOneShard ⟨by decide, by decide⟩ (by decide) 11).1 rfl⟩,
    ⟨rfl,
      (GetUser_not_found stateOneShard ⟨by decide, by decide⟩ (by decide) 11).2.1
        none "" "" rfl⟩⟩

/-- C6.  `Close` leaves the manager and the tables as they are, calls `Close` on every
store once, in the order of the stores and whatever the earlier outcomes are; it
returns no error exactly when every store closes without error, and otherwise it
returns the join of all the failures in the order of the stores, each failure of a
store being among them. -/
theorem Close_aggregates (st : State) (closeErr : Nat → Option BackendErr) :
    (Close st closeErr).1.sm = st.sm ∧
    (Close st closeErr).1.world.users = st.world.users ∧
    (Close st closeErr).1.world.journal
      = st.world.journal ++ st.sm.dbs.map (fun db => Event.close db.handle) ∧
    ((Close st closeErr).2 = none ↔ ∀ i, i < st.sm.dbs.length → closeErr i = none) ∧
    ((Close st closeErr).2 ≠ none →
      (Close st closeErr).2
        = some (.join ((List.range st.sm.dbs.length).filterMap closeErr))) ∧
    (∀ i e, i < st.sm.dbs.length → closeErr i = some e →
      e ∈ (List.range st.sm.dbs.length).filterMap closeErr) := by
  have hloop := closeLoop_eq closeErr st.sm.dbs 0 [] st.world
  have hfun : (fun j => closeErr (0 + j)) = closeErr := by
    funext j
    rw [Nat.zero_add]
  rw [hfun, List.nil_append] at hloop
  have hnil : (List.range st.sm.dbs.length).filterMap closeErr = [] ↔
      ∀ i, i < st.sm.dbs.length → closeErr i = none := by
    rw [List.filterMap_eq_nil_iff]
    constructor
    · intro h i hi
      exact h i (List.mem_range.mpr hi)
    · intro h i hi
      exact h i (List.mem_range.mp hi)
  unfold Close
  simp only [hloop]
  by_cases hempty : (List.range st.sm.dbs.length).filterMap closeErr = []
  · rw [hempty]
    refine ⟨rfl, rfl, rfl, ?_, ?_, ?_⟩
    · simp only [List.length_nil, gt_iff_lt, lt_self_iff_false, if_false, true_iff]
      exact hnil.mp hempty
    · intro h
      simp at h
    · intro i e hi he
      have := hnil.mp hempty i hi
      rw [he] at this
      cases this
  · have hpos : ((List.range st.sm.dbs.length).filterMap closeErr).length > 0 :=
      List.length_pos.mpr hempty
    rw [if_pos hpos]
    refine ⟨rfl, rfl, rfl, ?_, ?_, ?_⟩
    · constructor
      · intro h
        cases h
      · intro h
        exact absurd (hnil.mpr h) hempty
    · intro _
      rfl
    · intro i e hi he
      exact List.mem_filterMap.mpr ⟨i, List.mem_range.mpr hi, he⟩

/-- The theorem on `Close` at three stores of which the first and the third fail to
close. -/
theorem Close_aggregates_witness :
    ((Close stateThreeShards closeFailsTwice).2 ≠ none ∧
      (Close stateThreeShards closeFailsTwice).2
        = some (.join ((List.range stateThreeShards.sm.dbs.length).filterMap closeFailsTwice))) ∧
    ((2 < stateThreeShards.sm.dbs.length ∧
        closeFailsTwice 2 = some { msg := "close 2 failed" }) ∧
      ({ msg := "close 2 failed" } : BackendErr)
        ∈ (List.range stateThreeShards.sm.dbs.length).filterMap closeFailsTwice) :=
  ⟨⟨by decide, (Close_aggregates stateThreeShards closeFailsTwice).2.2.2.2.1 (by decide)⟩,
    ⟨⟨by decide, rfl⟩,
      (Close_aggregates stateThreeShards closeFailsTwice).2.2.2.2.2 2
        { msg := "close 2 failed" } (by decide) rfl⟩⟩

/-- C7 (the code departs from it).  With two shards, when the first pragma of the
store of index 1 fails, `NewShardManager` returns the wrapped error after closing
the store of index 1 only: the pool of the store of index 0 is still open. -/
theorem NewShardManager_leaves_earlier_store_open :
    (NewShardManager joinSlash faultAtSecondStore 2 "data" emptyWorld).2
        = .error (.wrap "failed set journal_mode WAL: " { msg := "disk I/O error" }) ∧
      closedHandles (NewShardManager joinSlash faultAtSecondStore 2 "data" emptyWorld).1.journal
        = [1] ∧
      stillOpen (NewShardManager joinSlash faultAtSecondStore 2 "data" emptyWorld).1.journal
        = [0] := by
  refine ⟨rfl, rfl, rfl⟩

/-- C8.  For a shard count below one, `NewShardManager` returns the construction
error and no manager, and the world is the one it was called in: no directory is
created and no store is opened.  For a shard count `num ≥ 1` and a backend on which
every step succeeds, it returns a manager with `numShards = num` and `num` stores, the
store at each position `i < num` being a pool opened by `sql.Open` on the file
`shard_<i>.db` joined to the base directory, which is `temp` when the empty string
is passed. -/
theorem NewShardManager_validates (join : String → String → String) (f : Faults)
    (num : Int) (baseDir : String) (w : World) :
    (num < 1 →
      NewShardManager join f num baseDir w
        = (w, .error (.errorf "num shards must be >= 1"))) ∧
    (1 ≤ num → f.AllSucceed num →
      ∃ (w' : World) (m : ShardManager),
        NewShardManager join f num baseDir w = (w', .ok m) ∧
        m.numShards = num ∧ (m.dbs.length : Int) = num ∧
        ∀ i : Nat, (i : Int) < num →
          ∃ db : DB, m.dbs[i]? = some db ∧
            db.path = join (if baseDir = "" then "temp" else baseDir) (shardFileName i) ∧
            Event.sqlOpen db.path (some db.handle) ∈ w'.journal) := by
  constructor
  · intro hlt
    unfold NewShardManager
    rw [if_pos hlt]
  · intro hnum hf
    obtain ⟨w', m, h⟩ := NewShardManager_succeed join f num baseDir w hnum hf
    obtain ⟨_, hn, hd, _⟩ := NewShardManager_ok _ _ _ _ _ _ _ h
    have hwf := NewShardManager_wf _ _ _ _ _ _ _ h
    refine ⟨w', m, h, hn, by rw [hwf.2, hn], ?_⟩
    intro i hi
    have hi' : i < num.toNat := by omega
    refine ⟨{ handle := w.nextHandle + i,
              path := join (effectiveBaseDir baseDir) (shardFileName i) }, ?_, rfl, ?_⟩
    · rw [hd]
      simp [hi']
    · -- the journal of the loop contains the opening of every store
      unfold NewShardManager at h
      rw [if_neg (by omega)] at h
      dsimp only at h
      rw [hf.1] at h
      dsimp only at h
      rcases hloop : openShards join f (if baseDir = "" then "temp" else baseDir) num.toNat 0 []
          (w.record (.mkdirAll (if baseDir = "" then "temp" else baseDir))) with ⟨w1, r⟩
      rw [hloop] at h
      cases r with
      | error e => simp at h
      | ok dbs =>
        simp only [Prod.mk.injEq] at h
        obtain ⟨hw, _⟩ := h
        subst hw
        have := (openShards_journal join f _ _ _ _ _ _ _ hloop).2 i hi'
        simpa [World.record, effectiveBaseDir] using this

/-- The theorem on the validation of the shard count at the counts 0 and 2, the
second with an empty directory name. -/
theorem NewShardManager_validates_witness :
    ((0 : Int) < 1 ∧
      NewShardManager joinSlash noFaults 0 "data" emptyWorld
        = (emptyWorld, .error (.errorf "num shards must be >= 1"))) ∧
    ((1 : Int) ≤ 2 ∧ noFaults.AllSucceed 2 ∧
      ∃ (w' : World) (m : ShardManager),
        NewShardManager joinSlash noFaults 2 "" emptyWorld = (w', .ok m) ∧
        m.numShards = 2 ∧ (m.dbs.length : Int) = 2 ∧
        ∀ i : Nat, (i : Int) < 2 →
          ∃ db : DB, m.dbs[i]? = some db ∧
            db.path = joinSlash (if "" = "" then "temp" else "") (shardFileName i) ∧
            Event.sqlOpen db.path (some db.handle) ∈ w'.journal) :=
  ⟨⟨by decide, (NewShardManager_validates joinSlash noFaults 0 "data" emptyWorld).1 (by decide)⟩,
    ⟨by decide, ⟨rfl, fun _ _ => ⟨rfl, fun _ => rfl⟩⟩,
      (NewShardManager_validates joinSlash noFaults 2 "" emptyWorld).2 (by decide)
        ⟨rfl, fun _ _ => ⟨rfl, fun _ => rfl⟩⟩⟩⟩

/-- C9.  `InsertUser` and `GetUser` never change the shard count or the store
sequence, whatever the backend answers: after every sequence of calls the manager is
the one before it, so every key is routed as before; and the index a key is routed to
is the same on two managers that have the same shard count and as many stores. -/
theorem routing_is_stable (st : State) (ops : List Op) (key : Int) :
    (runOps st ops).sm.numShards = st.sm.numShards ∧
    (runOps st ops).sm.dbs = st.sm.dbs ∧
    getDBAndIndexFor (runOps st ops).sm key = getDBAndIndexFor st.sm key ∧
    (∀ t : ShardManager, t.numShards = st.sm.numShards → t.dbs.length = st.sm.dbs.length →
      (getDBAndIndexFor t key).map Prod.snd = (getDBAndIndexFor st.sm key).map Prod.snd) := by
  refine ⟨by rw [runOps_sm], by rw [runOps_sm], by rw [runOps_sm], ?_⟩
  intro t hn hlen
  exact getDBAndIndexFor_index_congr t st.sm key hn hlen

/-- The theorem on stable routing at a sequence of three calls on three shards and a
second manager of three shards. -/
theorem routing_is_stable_witness :
    (otherThreeShards.numShards = stateThreeShards.sm.numShards ∧
      otherThreeShards.dbs.length = stateThreeShards.sm.dbs.length) ∧
    (getDBAndIndexFor otherThreeShards 5).map Prod.snd
      = (getDBAndIndexFor stateThreeShards.sm 5).map Prod.snd :=
  ⟨⟨by decide, by decide⟩,
    (routing_is_stable stateThreeShards
      [.insert none 1 "u1" "p1", .get none 1, .insert (some { msg := "busy" }) 2 "u2" "p2"]
      5).2.2.2 otherThreeShards (by decide) (by decide)⟩

/-- C10.  For two different keys `a` and `b`, `InsertUser` of `a` changes no record
other than the one with the key `a` in the file of the store that `a` is routed to;
`GetUser` of `b` returns the same before and after it, for every answer of the
backend to the query; the manager is unchanged; and when the stores are opened on
pairwise different files, the table of the store at every position other than the
index of `a` is unchanged. -/
theorem InsertUser_isolation (st : State) (a b : Int) (hab : a ≠ b) (u p : String)
    (fault : Option BackendErr) :
    (∀ (q : String) (k : Int),
      (InsertUser st fault a u p).1.world.users q k ≠ st.world.users q k →
        ∃ db idx, getDBAndIndexFor st.sm a = .ok (db, idx) ∧ q = db.path ∧ k = a) ∧
    (∀ g : Option BackendErr,
      (GetUser (InsertUser st fault a u p).1 g b).2 = (GetUser st g b).2) ∧
    (InsertUser st fault a u p).1.sm = st.sm ∧
    (st.sm.DistinctFiles → ∀ (db : DB) (idx : Int),
      getDBAndIndexFor st.sm a = .ok (db, idx) →
        ∀ (j : Nat) (dbj : DB), (j : Int) ≠ idx → st.sm.dbs[j]? = some dbj →
          (InsertUser st fault a u p).1.world.users dbj.path = st.world.users dbj.path) := by
  have hkey : ∀ (q : String), (InsertUser st fault a u p).1.world.users q b
      = st.world.users q b := by
    intro q
    cases hr : getDBAndIndexFor st.sm a with
    | error e => rw [(InsertUser_users_of_panic st fault a u p e hr).1]
    | ok r =>
      obtain ⟨db, idx⟩ := r
      rw [InsertUser_users_of_routed st fault a u p db idx hr]
      have hne : b ≠ a := fun h => hab h.symm
      simp [hne]
  refine ⟨?_, ?_, InsertUser_sm st fault a u p, ?_⟩
  · intro q k hne
    cases hr : getDBAndIndexFor st.sm a with
    | error e =>
      rw [(InsertUser_users_of_panic st fault a u p e hr).1] at hne
      exact absurd rfl hne
    | ok r =>
      obtain ⟨db, idx⟩ := r
      rw [InsertUser_users_of_routed st fault a u p db idx hr] at hne
      refine ⟨db, idx, rfl, ?_⟩
      by_cases hc : fault = none ∧ q = db.path ∧ k = a ∧ st.world.users db.path a = none
      · exact ⟨hc.2.1, hc.2.2.1⟩
      · rw [if_neg hc] at hne
        exact absurd rfl hne
  · intro g
    cases hrb : getDBAndIndexFor st.sm b with
    | error e =>
      have hrb' : getDBAndIndexFor (InsertUser st fault a u p).1.sm b = .error e := by
        rw [InsertUser_sm]; exact hrb
      unfold GetUser
      rw [hrb, hrb']
    | ok r =>
      obtain ⟨db, idx⟩ := r
      have hrb' : getDBAndIndexFor (InsertUser st fault a u p).1.sm b = .ok (db, idx) := by
        rw [InsertUser_sm]; exact hrb
      rw [GetUser_result_of_routed _ g b db idx hrb', GetUser_result_of_routed _ g b db idx hrb,
        hkey]
  · intro hdistinct db idx hr j dbj hj hdbj
    obtain ⟨n, hn, hdb⟩ := getDBAndIndexFor_position st.sm a db idx hr
    have hjlen : j < (st.sm.dbs.map DB.path).length := by
      rw [List.length_map]
      by_contra hge
      rw [List.getElem?_eq_none (by omega)] at hdbj
      cases hdbj
    have hpath : dbj.path ≠ db.path := by
      intro heq
      have h1 : (st.sm.dbs.map DB.path)[j]? = (st.sm.dbs.map DB.path)[n]? := by
        rw [List.getElem?_map, List.getElem?_map, hdbj, hdb]
        simp [heq]
      have := List.getElem?_inj hjlen hdistinct h1
      apply hj
      rw [hn, this]
    funext k
    rw [InsertUser_users_of_routed st fault a u p db idx hr]
    simp [hpath]

/-- The theorem on isolation at three shards, the keys 1 and 2 and the store at
position 1. -/
theorem InsertUser_isolation_witness :
    (((1 : Int) ≠ 2 ∧ stateThreeShards.sm.DistinctFiles ∧
        getDBAndIndexFor stateThreeShards.sm 1
          = .ok ({ handle := 2, path := "data/shard_2.db" }, 2) ∧
        ((1 : Nat) : Int) ≠ 2 ∧
        stateThreeShards.sm.dbs[1]? = some { handle := 1, path := "data/shard_1.db" }) ∧
      (InsertUser stateThreeShards none 1 "u1" "p1").1.world.users
          (DB.path { handle := 1, path := "data/shard_1.db" })
        = stateThreeShards.world.users (DB.path { handle := 1, path := "data/shard_1.db" })) ∧
    ((InsertUser stateThreeShards none 1 "u1" "p1").1.world.users "data/shard_2.db" 1
        ≠ stateThreeShards.world.users "data/shard_2.db" 1 ∧
      ∃ db idx, getDBAndIndexFor stateThreeShards.sm 1 = .ok (db, idx) ∧
        "data/shard_2.db" = db.path ∧ (1 : Int) = 1) :=
  ⟨⟨⟨by decide, by decide, rfl, by decide, rfl⟩,
      (InsertUser_isolation stateThreeShards 1 2 (by decide) "u1" "p1" none).2.2.2
        (by decide)
        { handle := 2, path := "data/shard_2.db" } 2 rfl 1
        { handle := 1, path := "data/shard_1.db" } (by decide) rfl⟩,
    ⟨by decide,
      (InsertUser_isolation stateThreeShards 1 2 (by decide) "u1" "p1" none).1
        "data/shard_2.db" 1 (by decide)⟩⟩

/-! ## The scenario of the specification: three shards, ten inserts -/

set_option maxRecDepth 100000 in
/-- After the ten inserts every lookup of an id from 1 to 10 returns its record, the
lookup of 11 returns `sql.ErrNoRows`, and the ids are spread over the three shards
by the checksum of their decimal strings. -/
theorem scenario_three_shards :
    scenarioRecords.map (fun r => (GetUser scenarioState none r.1).2)
        = scenarioRecords.map (fun r => .ok (r.2.1, r.2.2, none)) ∧
      (GetUser scenarioState none 11).2 = .ok ("", "", some .errNoRows) ∧
      scenarioRecords.map (fun r => (getDBAndIndexFor threeShards r.1).map Prod.snd)
        = [.ok 2, .ok 1, .ok 1, .ok 1, .ok 1, .ok 1, .ok 0, .ok 2, .ok 0, .ok 0] := by
  exact ⟨rfl, rfl, rfl⟩

end Sharding
